import Mathlib

/-
Verification development for the repeer trust node (src/trust-node).

Shallow embedding conventions:
- Rust `f64` values (ROIs, volumes, weights, quality multipliers) are modelled
  as exact rationals `ℚ`; `usize` counts as `Nat`; `u8` depth as `Nat`;
  `chrono::DateTime<Utc>` instants as `Int` seconds since the epoch, so that
  `chrono::Duration::num_days` becomes `Int.tdiv _ 86400` (truncation toward
  zero, as chrono does) and `num_seconds` the plain difference.
- Fallible operations return `Except`; the in-memory `HashMap`s whose iteration
  order the code relies on only for grouping are modelled as association lists
  with first-insertion key order; `HashSet<PeerId>` as a duplicate-free
  `List String`; the `Arc<Mutex<PendingRequest>>` sharing as an explicit heap
  `records : List (Nat × PendingRequest)` addressed by reference id, with the
  request-id index `index : List (Nat × Nat)` pointing into it, so that
  `Arc::ptr_eq` is reference-id equality.
- The query engine's time-keyed memo cache (query_engine.rs) is bypassed: we
  model the pure computation performed on a cache miss, on the experience list
  the storage fetch returns (the spec states correctness never depends on the
  cache).
-/

namespace Repeer

/-- Trust score value type (types.rs `TrustScore`): `(expected_pv_roi, total_volume, data_points)`. -/
structure TrustScore where
  expected_pv_roi : ℚ
  total_volume : ℚ
  data_points : Nat
deriving DecidableEq, Repr

/-- `TrustScore::default()` (types.rs): the neutral score `(1.0, 0.0, 0)`. -/
def TrustScore.neutral : TrustScore := ⟨1, 0, 0⟩

/-- `TrustScore::merge_with` (types.rs lines 42-70): volume-weighted merge of
`self` with `other` under signed weight `other_weight`. -/
def TrustScore.merge_with (s : TrustScore) (other : TrustScore) (other_weight : ℚ) : TrustScore :=
  let self_adjusted_volume := s.total_volume
  let other_adjusted_volume := other.total_volume * |other_weight|
  if self_adjusted_volume = 0 ∧ other_adjusted_volume = 0 then
    TrustScore.neutral
  else
    let total_weight := self_adjusted_volume + other_adjusted_volume
    let other_roi := if other_weight < 0 then 2 - other.expected_pv_roi else other.expected_pv_roi
    let weighted_roi :=
      if 0 < total_weight then
        (s.expected_pv_roi * self_adjusted_volume + other_roi * other_adjusted_volume) / total_weight
      else 1
    ⟨weighted_roi, total_weight, s.data_points + other.data_points⟩

/-- The in-place adjustment `merge_multiple` applies to its first contribution
(types.rs lines 88-94): scale the volume by `|w|` and reflect the ROI around 1.0
when `w < 0`, but only when `w ≠ 1.0`. -/
def TrustScore.apply_first_weight (s : TrustScore) (w : ℚ) : TrustScore :=
  if w ≠ 1 then
    ⟨if w < 0 then 2 - s.expected_pv_roi else s.expected_pv_roi,
     s.total_volume * |w|, s.data_points⟩
  else s

/-- `TrustScore::merge_multiple` (types.rs lines 79-101): start from the first
weighted contribution and fold `merge_with` over the rest. -/
def TrustScore.merge_multiple (scores : List (TrustScore × ℚ)) : TrustScore :=
  match scores with
  | [] => TrustScore.neutral
  | (first, w) :: rest =>
    rest.foldl (fun acc p => acc.merge_with p.1 p.2) (first.apply_first_weight w)

/-- The fold `merge_multiple` performs after peeling its first contribution
(types.rs lines 96-99). -/
def mergeFold (init : TrustScore) (l : List (TrustScore × ℚ)) : TrustScore :=
  l.foldl (fun acc p => acc.merge_with p.1 p.2) init

/-- Effective volume `v · |w|` of a weighted contribution (spec section 4.2). -/
def effectiveVolume (p : TrustScore × ℚ) : ℚ := p.1.total_volume * |p.2|

/-- Effective ROI `r' = r` if `w ≥ 0` else `2 − r` of a weighted contribution (spec section 4.2). -/
def effectiveRoi (p : TrustScore × ℚ) : ℚ :=
  if p.2 < 0 then 2 - p.1.expected_pv_roi else p.1.expected_pv_roi

/-- `Σ vᵢ'` over a contribution list. -/
def sumEffVolume (l : List (TrustScore × ℚ)) : ℚ := (l.map effectiveVolume).sum

/-- `Σ rᵢ' · vᵢ'` over a contribution list. -/
def sumEffRoiVolume (l : List (TrustScore × ℚ)) : ℚ :=
  (l.map (fun p => effectiveRoi p * effectiveVolume p)).sum

/-- `Σ nᵢ` over a contribution list. -/
def sumDataPoints (l : List (TrustScore × ℚ)) : Nat :=
  (l.map (fun p => p.1.data_points)).sum

/-- Modelled from the spec (section 4.2): the fusion formula
`(Σ rᵢ'·vᵢ' / Σ vᵢ', Σ vᵢ', Σ nᵢ)` the claims compare `merge_multiple` against,
with the neutral default for the empty contribution set. -/
def specFusion (l : List (TrustScore × ℚ)) : TrustScore :=
  if l.isEmpty then TrustScore.neutral
  else ⟨sumEffRoiVolume l / sumEffVolume l, sumEffVolume l, sumDataPoints l⟩

/-- A first-hand experience record (types.rs `TrustExperience`, in the shape
storage.rs persists: the agent is identified by the single `agent_id` column).
`data` models the opaque JSON payload as an uninterpreted string. -/
structure TrustExperience where
  id : String
  agent_id : String
  pv_roi : ℚ
  invested_volume : ℚ
  timestamp : Int
  notes : Option String
  data : Option String
deriving DecidableEq, Repr

/-- `TrustExperience::aged_volume` (types.rs lines 161-165):
`years = num_days(T − timestamp)/365`, `age_factor = max(0, 1 − |years|·φ)`,
`aged = invested_volume · age_factor`. -/
def TrustExperience.aged_volume (e : TrustExperience) (point_in_time : Int) (forget_rate : ℚ) : ℚ :=
  let years_elapsed : ℚ := (((point_in_time - e.timestamp).tdiv 86400 : ℤ) : ℚ) / 365
  let age_factor := max (1 - |years_elapsed| * forget_rate) 0
  e.invested_volume * age_factor

/-- `QueryEngine::calculate_weighted_average` (query_engine.rs lines 170-192):
accumulate `(Σ pv_roi·aged, Σ aged)` over experiences with `aged_volume > 0`,
then divide, defaulting to `(1.0, 0.0)` when the weight sum is not positive. -/
def calculate_weighted_average (experiences : List TrustExperience)
    (point_in_time : Int) (forget_rate : ℚ) : ℚ × ℚ :=
  let acc := experiences.foldl
    (fun (a : ℚ × ℚ) exp =>
      let aged := exp.aged_volume point_in_time forget_rate
      if 0 < aged then (a.1 + exp.pv_roi * aged, a.2 + aged) else a)
    (0, 0)
  if 0 < acc.2 then (acc.1 / acc.2, acc.2) else (1, 0)

/-- `QueryEngine::calculate_trust_score` (query_engine.rs lines 71-132), memo
cache bypassed, applied to the experience list the storage fetch returned:
the neutral default on an empty list, otherwise the weighted average with
`data_points = experiences.len()`. -/
def calculate_trust_score (experiences : List TrustExperience)
    (point_in_time : Int) (forget_rate : ℚ) : TrustScore :=
  if experiences.isEmpty then TrustScore.neutral
  else
    let wa := calculate_weighted_average experiences point_in_time forget_rate
    ⟨wa.1, wa.2, experiences.length⟩

/-- Experiences whose aged volume is strictly positive (spec section 4.3's
contributing experiences). -/
def contributingExperiences (es : List TrustExperience) (T : Int) (φ : ℚ) : List TrustExperience :=
  es.filter (fun e => decide (0 < e.aged_volume T φ))

/-- `Σ aged_volume` over the contributing experiences. -/
def agedVolumeSum (es : List TrustExperience) (T : Int) (φ : ℚ) : ℚ :=
  ((contributingExperiences es T φ).map (fun e => e.aged_volume T φ)).sum

/-- `Σ pv_roi · aged_volume` over the contributing experiences. -/
def agedRoiSum (es : List TrustExperience) (T : Int) (φ : ℚ) : ℚ :=
  ((contributingExperiences es T φ).map (fun e => e.pv_roi * e.aged_volume T φ)).sum

/-- Insertion step for the `ORDER BY ... DESC` result-set model: keep `x`
before `a` whenever `le x a` holds. -/
def insertOrdered {α : Type} (le : α → α → Bool) (a : α) : List α → List α
  | [] => [a]
  | x :: xs => if le x a then x :: insertOrdered le a xs else a :: x :: xs

/-- Sort model for SQLite `ORDER BY` result sets (insertion sort by `le`). -/
def sortOrdered {α : Type} (le : α → α → Bool) (l : List α) : List α :=
  l.foldr (insertOrdered le) []

/-- Storage failure taxonomy we need: the unique-constraint conflict on a
duplicate primary key. -/
inductive StorageError where
  | conflict
deriving DecidableEq, Repr

/-- `SqliteStorage::add_experience` (storage.rs lines 117-138): a plain
`INSERT` keyed on `id TEXT PRIMARY KEY` — fails with a conflict iff the id is
already present, performs no validation of the other fields. -/
def add_experience (store : List TrustExperience) (e : TrustExperience) :
    Except StorageError (List TrustExperience) :=
  if store.any (fun x => x.id = e.id) then .error .conflict
  else .ok (store ++ [e])

/-- `SqliteStorage::get_experiences` (storage.rs lines 140-178): all rows with
the given `agent_id`, ordered `timestamp DESC`, fields returned as stored. -/
def get_experiences (store : List TrustExperience) (agent_id : String) : List TrustExperience :=
  sortOrdered (fun x y => decide (y.timestamp ≤ x.timestamp))
    (store.filter (fun e => e.agent_id = agent_id))

/-- The value handed to the cache writer (types.rs `CachedTrustScore`): carries
both halves of the agent identifier. -/
structure CachedTrustScore where
  id_domain : String
  agent_id : String
  score : TrustScore
  from_peer : String
  cached_at : Int
deriving DecidableEq, Repr

/-- A persisted `cached_scores` row (storage.rs lines 83-97): the table has no
`id_domain` column; its primary key is `(agent_id, from_peer)`. -/
structure CachedScoreRow where
  agent_id : String
  score : TrustScore
  from_peer : String
  cached_at : Int
deriving DecidableEq, Repr

/-- `SqliteStorage::cache_trust_score` (storage.rs lines 307-325):
`INSERT OR REPLACE` on the `(agent_id, from_peer)` primary key — any existing
row with the same key is replaced; `id_domain` is not bound at all. -/
def cache_trust_score (store : List CachedScoreRow) (c : CachedTrustScore) : List CachedScoreRow :=
  store.filter (fun r => ¬ (r.agent_id = c.agent_id ∧ r.from_peer = c.from_peer)) ++
    [⟨c.agent_id, c.score, c.from_peer, c.cached_at⟩]

/-- `SqliteStorage::get_cached_scores` (storage.rs lines 327-363): rows with
the given `agent_id`, ordered `cached_at DESC`. -/
def get_cached_scores (store : List CachedScoreRow) (agent_id : String) : List CachedScoreRow :=
  sortOrdered (fun x y => decide (y.cached_at ≤ x.cached_at))
    (store.filter (fun r => r.agent_id = agent_id))

/-- A peer registry entry (types.rs `Peer`). -/
structure Peer where
  peer_id : String
  name : String
  recommender_quality : ℚ
  added_at : Int
deriving DecidableEq, Repr

/-- An agent identifier `(id_domain, agent_id)` (types.rs `AgentIdentifier`). -/
structure AgentIdentifier where
  id_domain : String
  agent_id : String
deriving DecidableEq, Repr

/-- A trust query (types.rs `TrustQuery`). -/
structure TrustQuery where
  agents : List AgentIdentifier
  max_depth : Nat
  point_in_time : Option Int
  forget_rate : Option ℚ
deriving DecidableEq, Repr

/-- A scored agent in a response (types.rs `AgentScore`). -/
structure AgentScore where
  id_domain : String
  agent_id : String
  score : TrustScore
deriving DecidableEq, Repr

/-- A trust response (types.rs `TrustResponse`). -/
structure TrustResponse where
  scores : List AgentScore
  timestamp : Int
deriving DecidableEq, Repr

/-- A received peer response paired with the responding peer id
(protocols.rs `TrustResponseInternal`). -/
abbrev TrustResponseInternal := TrustResponse × String

/-- Key of the coordinator's contribution table: `(id_domain, agent_id)`. -/
abbrev AgentKey := String × String

/-- One contribution `(source, score, weight)` (node.rs `all_scores` values). -/
abbrev Contribution := String × TrustScore × ℚ

/-- The contribution table `HashMap<(String,String), Vec<(String,TrustScore,f64)>>`
modelled as an association list in first-insertion key order. -/
abbrev ScoreTable := List (AgentKey × List Contribution)

/-- `entry(key).or_default().push(c)` on the contribution table. -/
def pushContribution (t : ScoreTable) (k : AgentKey) (c : Contribution) : ScoreTable :=
  if t.any (fun e => e.1 = k) then
    t.map (fun e => if e.1 = k then (e.1, e.2 ++ [c]) else e)
  else t ++ [(k, [c])]

/-- `TrustNode::combine_scores_sync` (node.rs lines 681-689): drop the source
tags and fuse with `merge_multiple`. -/
def combine_scores_sync (contribs : List Contribution) : TrustScore :=
  TrustScore.merge_multiple (contribs.map (fun c => (c.2.1, c.2.2)))

/-- Collapse a contribution table into the response's `AgentScore` list
(node.rs lines 664-670 and 392-400). -/
def mergeTable (t : ScoreTable) : List AgentScore :=
  t.map (fun e => ⟨e.1.1, e.1.2, combine_scores_sync e.2⟩)

/-- `entry(key).or_default().push(s)` on the response grouping table of
`merge_responses`. -/
def pushGroup (t : List (AgentKey × List TrustScore)) (k : AgentKey) (s : TrustScore) :
    List (AgentKey × List TrustScore) :=
  if t.any (fun e => e.1 = k) then
    t.map (fun e => if e.1 = k then (e.1, e.2 ++ [s]) else e)
  else t ++ [(k, [s])]

/-- `merge_responses` (protocols.rs lines 109-147): group every received
`AgentScore` by agent key and fuse each group with uniform weight `1.0`. -/
def merge_responses (responses : List TrustResponseInternal) (now : Int) : TrustResponse :=
  let grouped := responses.foldl
    (fun acc r => r.1.scores.foldl
      (fun a2 as => pushGroup a2 (as.id_domain, as.agent_id) as.score) acc) []
  ⟨grouped.map (fun e => ⟨e.1.1, e.1.2,
      TrustScore.merge_multiple (e.2.map (fun s => (s, (1 : ℚ))))⟩), now⟩

/-- A pending fan-out record (node.rs `PendingRequest`); the reply channel is
modelled by returning the reply from the handler that drains the record. -/
structure PendingRequest where
  responses : List TrustResponseInternal
  waiting_for : List String
  local_scores : ScoreTable
deriving DecidableEq, Repr

/-- The node state the claims touch: the durable stores, the in-memory peer
registry, and the pending-request table split into the record heap (one entry
per `Arc`'d record) and the outbound-request-id index into it. -/
structure NodeState where
  experiences : List TrustExperience
  cached : List CachedScoreRow
  peers : List Peer
  records : List (Nat × PendingRequest)
  index : List (Nat × Nat)
  nextRef : Nat
  nextReq : Nat
deriving DecidableEq, Repr

/-- Association-list lookup by `Nat` key. -/
def findAssoc {β : Type} (l : List (Nat × β)) (k : Nat) : Option β :=
  match l.find? (fun e => e.1 = k) with
  | some e => some e.2
  | none => none

/-- Association-list in-place update by `Nat` key. -/
def updateAssoc {β : Type} (l : List (Nat × β)) (k : Nat) (v : β) : List (Nat × β) :=
  l.map (fun e => if e.1 = k then (k, v) else e)

/-- Phase-1 contribution table (node.rs lines 567-606): the `"self"` entry per
agent with positive local volume, then every cached opinion whose `from_peer`
is still in the peer registry, weighted by
`recommender_quality · 1/(1 + age_seconds/86400)`. -/
def phase1Table (experiences : List TrustExperience) (cached : List CachedScoreRow)
    (peers : List Peer) (agents : List AgentIdentifier) (T : Int) (φ : ℚ) (now : Int) :
    ScoreTable :=
  let t1 := agents.foldl
    (fun t a =>
      let personal := calculate_trust_score (get_experiences experiences a.agent_id) T φ
      if 0 < personal.total_volume then
        pushContribution t (a.id_domain, a.agent_id) ("self", personal, 1)
      else t) []
  agents.foldl
    (fun t a =>
      (get_cached_scores cached a.agent_id).foldl
        (fun t2 c =>
          match peers.find? (fun p => p.peer_id = c.from_peer) with
          | some peer =>
            let age_seconds : ℚ := ((now - c.cached_at : ℤ) : ℚ)
            let age_factor := 1 / (1 + age_seconds / 86400)
            pushContribution t2 (a.id_domain, a.agent_id)
              (c.from_peer, c.score, peer.recommender_quality * age_factor)
          | none => t2) t) t1

/-- The registry peers a fan-out targets (node.rs lines 614-643): those whose
stored handle yields a transport peer id (`extract` abstracts the multiaddr
parsing chain) that is currently connected; one outbound request per registry
entry, in registry iteration order. -/
def fanoutTargets (extract : String → Option String) (connected : List String)
    (peers : List Peer) : List String :=
  peers.foldl
    (fun acc p =>
      match extract p.peer_id with
      | some pid => if pid ∈ connected then acc ++ [pid] else acc
      | none => acc) []

/-- `HashSet::insert` on the waiting set. -/
def dedupAppend (l : List String) (x : String) : List String :=
  if x ∈ l then l else l ++ [x]

/-- The reply a depth-0 query produces (node.rs lines 663-678 with the fan-out
block skipped): a function of the stored experiences, the cached opinions, the
peer registry, the query and the clock only. -/
def depth_zero_reply (experiences : List TrustExperience) (cached : List CachedScoreRow)
    (peers : List Peer) (query : TrustQuery) (now : Int) : TrustResponse :=
  ⟨mergeTable (phase1Table experiences cached peers query.agents
      (query.point_in_time.getD now) (query.forget_rate.getD 0) now), now⟩

/-- `TrustNode::process_trust_query` (node.rs lines 562-679). Returns the new
state, the sub-queries sent `(peer id, query)`, and the reply if one was sent
synchronously. -/
def process_trust_query (extract : String → Option String) (connected : List String)
    (st : NodeState) (query : TrustQuery) (now : Int) :
    NodeState × List (String × TrustQuery) × Option (Except String TrustResponse) :=
  let point_in_time := query.point_in_time.getD now
  let forget_rate := query.forget_rate.getD 0
  let all_scores := phase1Table st.experiences st.cached st.peers query.agents
      point_in_time forget_rate now
  let targets := if 0 < query.max_depth then fanoutTargets extract connected st.peers else []
  if targets.isEmpty then
    (st, [], some (.ok ⟨mergeTable all_scores, now⟩))
  else
    let sub : TrustQuery := ⟨query.agents, query.max_depth - 1, some point_in_time, some forget_rate⟩
    let waiting := targets.foldl dedupAppend []
    let pending : PendingRequest := ⟨[], waiting, all_scores⟩
    let ids := (List.range targets.length).map (fun i => st.nextReq + i)
    ({ st with
        records := st.records ++ [(st.nextRef, pending)],
        index := st.index ++ ids.map (fun i => (i, st.nextRef)),
        nextRef := st.nextRef + 1,
        nextReq := st.nextReq + targets.length },
     targets.map (fun pid => (pid, sub)),
     none)

/-- The opinion-caching side effect of a received response (node.rs lines
340-352): upsert every contained score under `(agent_id, from_peer)`. -/
def cacheResponseScores (cached : List CachedScoreRow) (scores : List AgentScore)
    (peer : String) (now : Int) : List CachedScoreRow :=
  scores.foldl
    (fun acc as => cache_trust_score acc ⟨as.id_domain, as.agent_id, as.score, peer, now⟩)
    cached

/-- The fan-in merge of `handle_trust_response` (node.rs lines 365-405): merge
the arrived responses, append each resulting score to the stored Phase-1 table
with source `"peers"` and weight `1.0`, then collapse the table. -/
def fan_in_merge (local_scores : ScoreTable) (responses : List TrustResponseInternal)
    (now : Int) : TrustResponse :=
  let peer_response := merge_responses responses now
  let final := peer_response.scores.foldl
    (fun t as => pushContribution t (as.id_domain, as.agent_id) ("peers", as.score, 1))
    local_scores
  ⟨mergeTable final, now⟩

/-- `TrustNode::handle_trust_response` (node.rs lines 336-427): cache every
received score, record the response on the pending record the request id
indexes, drop the peer from the waiting set, and when the set empties reply
with the fan-in merge and purge every index entry referencing the record. -/
def handle_trust_response (st : NodeState) (request_id : Nat) (peer : String)
    (response : TrustResponse) (now : Int) :
    NodeState × Option (Except String TrustResponse) :=
  let st1 := { st with cached := cacheResponseScores st.cached response.scores peer now }
  match findAssoc st1.index request_id with
  | none => (st1, none)
  | some ref =>
    match findAssoc st1.records ref with
    | none => (st1, none)
    | some pending =>
      let pending1 : PendingRequest :=
        ⟨pending.responses ++ [(response, peer)],
         pending.waiting_for.filter (fun p => ¬ p = peer),
         pending.local_scores⟩
      if pending1.waiting_for.isEmpty then
        ({ st1 with
            records := st1.records.filter (fun r => ¬ r.1 = ref),
            index := st1.index.filter (fun e => ¬ e.2 = ref) },
         some (.ok (fan_in_merge pending1.local_scores pending1.responses now)))
      else
        ({ st1 with records := updateAssoc st1.records ref pending1 }, none)

/-- `TrustNode::handle_request_failure` (node.rs lines 429-461): drop the peer
from the waiting set; when the set empties, reply with the error
`"All requests failed"` if no responses arrived and otherwise with
`merge_responses` of the arrived responses alone, purging the record's index
entries either way. -/
def handle_request_failure (st : NodeState) (request_id : Nat) (peer : String) (now : Int) :
    NodeState × Option (Except String TrustResponse) :=
  match findAssoc st.index request_id with
  | none => (st, none)
  | some ref =>
    match findAssoc st.records ref with
    | none => (st, none)
    | some pending =>
      let pending1 : PendingRequest :=
        ⟨pending.responses,
         pending.waiting_for.filter (fun p => ¬ p = peer),
         pending.local_scores⟩
      if pending1.waiting_for.isEmpty then
        ({ st with
            records := st.records.filter (fun r => ¬ r.1 = ref),
            index := st.index.filter (fun e => ¬ e.2 = ref) },
         some (if pending1.responses.isEmpty then .error "All requests failed"
               else .ok (merge_responses pending1.responses now)))
      else
        ({ st with records := updateAssoc st.records ref pending1 }, none)

/-- The codec's stream error kinds (protocols.rs maps both oversize frames and
JSON failures to `io::ErrorKind::InvalidData`; a short read is an unexpected
end of stream). -/
inductive IoError where
  | invalidData
  | unexpectedEof
deriving DecidableEq, Repr

/-- `read_length_prefixed` (protocols.rs lines 65-82) at the byte level: read a
4-byte big-endian unsigned length, reject it against `max_len` with an
invalid-data error before any payload byte is read, then read exactly that many
payload bytes. -/
def read_length_prefixed (bytes : List Nat) (max_len : Nat) : Except IoError (List Nat) :=
  match bytes with
  | b0 :: b1 :: b2 :: b3 :: rest =>
    let len := ((b0 * 256 + b1) * 256 + b2) * 256 + b3
    if max_len < len then .error .invalidData
    else if rest.length < len then .error .unexpectedEof
    else .ok (rest.take len)
  | _ => .error .unexpectedEof

/-- The framing stage of `TrustCodec::read_request` (protocols.rs lines 26-34):
limit `1_000_000` bytes. -/
def read_request_frame (bytes : List Nat) : Except IoError (List Nat) :=
  read_length_prefixed bytes 1000000

/-- The framing stage of `TrustCodec::read_response` (protocols.rs lines 36-44):
limit `10_000_000` bytes. -/
def read_response_frame (bytes : List Nat) : Except IoError (List Nat) :=
  read_length_prefixed bytes 10000000

/-- The declared big-endian length of a frame, when the 4-byte header is present. -/
def declaredLength (bytes : List Nat) : Option Nat :=
  match bytes with
  | b0 :: b1 :: b2 :: b3 :: _ => some (((b0 * 256 + b1) * 256 + b2) * 256 + b3)
  | _ => none

/-- Scenario state for claim C1's failing input: one pending record waiting on
peer `"B"` alone, no responses yet, and a non-empty Phase-1 table holding a
local contribution for agent `("x","a")`. -/
def c1_pending : PendingRequest :=
  ⟨[], ["B"], [(("x", "a"), [("self", ⟨6/5, 100, 1⟩, (1 : ℚ))])]⟩

/-- Node state for claim C1's failing input: the record is indexed under the
single outbound request id `0`. -/
def c1_state : NodeState := ⟨[], [], [], [(0, c1_pending)], [(0, 0)], 1, 1⟩

/-- Node state for the S4 scenario (claim C2): no local experiences, no cached
opinions, one registered peer `"B"` with recommender quality `q`. -/
def s4_state (q : ℚ) : NodeState := ⟨[], [], [⟨"B", "b", q, 0⟩], [], [], 0, 0⟩

/-- The S4 query: single agent `("x","a")`, depth 1, pinned clock. -/
def s4_query : TrustQuery := ⟨[⟨"x", "a"⟩], 1, some 0, some 0⟩

/-- The S4 peer response carrying one score for agent `("x","a")`. -/
def s4_response (s : TrustScore) : TrustResponse := ⟨[⟨"x", "a", s⟩], 0⟩

/-- End-to-end S4 run (claim C2): process the depth-1 query at the requester
(peer `"B"` connected, handles used verbatim as peer ids), then deliver peer
`"B"`'s response for the resulting outbound request id `0`; yields the reply
handed to the caller. -/
def s4_run (q : ℚ) (s : TrustScore) : Option (Except String TrustResponse) :=
  let step1 := process_trust_query (fun pid => some pid) ["B"] (s4_state q) s4_query 0
  (handle_trust_response step1.1 0 "B" (s4_response s) 0).2

/-- Modelled from the spec (section 4.3), amended to the code's data-point
count: the local score with `(Σ pv·aged/Σ aged, Σ aged)` over the contributing
experiences but `data_points` equal to the number of fetched experiences. -/
def specLocalScore (es : List TrustExperience) (T : Int) (φ : ℚ) : TrustScore :=
  if es.isEmpty then TrustScore.neutral
  else
    ⟨if 0 < agedVolumeSum es T φ then agedRoiSum es T φ / agedVolumeSum es T φ else 1,
     agedVolumeSum es T φ, es.length⟩

/-- A small but non-trivial node state for the depth-0 witness: one experience
and one cached opinion for agent `("d","a")`, peer `"B"` registered. -/
def c8_state : NodeState :=
  ⟨[⟨"e1", "a", 2, 10, 0, none, none⟩],
   [⟨"a", ⟨3, 5, 1⟩, "B", 0⟩],
   [⟨"B", "b", 1, 0⟩], [], [], 0, 0⟩

/-- A depth-0 query for agent `("d","a")`. -/
def c8_query : TrustQuery := ⟨[⟨"d", "a"⟩], 0, some 0, some 0⟩

/-- Scenario record for the cleanup witness (claim C9): waiting on `"B"` alone. -/
def c9_pending : PendingRequest := ⟨[], ["B"], []⟩

/-- Scenario state for the cleanup witness: the record with reference id `0` is
indexed under the two outbound request ids `0` and `1`; a second record with
reference id `7` is indexed under request id `2`. -/
def c9_state : NodeState :=
  ⟨[], [], [], [(0, c9_pending), (7, ⟨[], ["C"], []⟩)], [(0, 0), (1, 0), (2, 7)], 8, 3⟩

end Repeer

namespace Repeer

/-- The first contribution's in-place weighting equals the effective
ROI/volume pair of section 4.2. -/
theorem apply_first_weight_eq (p : TrustScore × ℚ) :
    p.1.apply_first_weight p.2 = ⟨effectiveRoi p, effectiveVolume p, p.1.data_points⟩ := by
  unfold TrustScore.apply_first_weight effectiveRoi effectiveVolume
  by_cases hw : p.2 = 1
  · simp [hw]
    norm_num
  · simp [hw]

/-- `merge_with` on a positive-volume accumulator and a positive-effective-volume
contribution is the volume-weighted average step. -/
theorem merge_with_pos (R V : ℚ) (N : Nat) (p : TrustScore × ℚ)
    (hV : 0 < V) (hev : 0 < effectiveVolume p) :
    TrustScore.merge_with ⟨R, V, N⟩ p.1 p.2 =
      ⟨(R * V + effectiveRoi p * effectiveVolume p) / (V + effectiveVolume p),
       V + effectiveVolume p, N + p.1.data_points⟩ := by
  unfold effectiveVolume at hev
  have h1 : ¬(V = 0 ∧ p.1.total_volume * |p.2| = 0) := fun h => absurd h.1 hV.ne'
  have h2 : 0 < V + p.1.total_volume * |p.2| := add_pos hV hev
  simp only [TrustScore.merge_with, effectiveRoi, effectiveVolume]
  rw [if_neg h1, if_pos h2]

/-- Merging the neutral score into a positive-volume accumulator with weight 1
leaves it unchanged. -/
theorem merge_with_neutral (R V : ℚ) (N : Nat) (hV : 0 < V) :
    TrustScore.merge_with ⟨R, V, N⟩ TrustScore.neutral 1 = ⟨R, V, N⟩ := by
  have h1 : ¬(V = 0 ∧ (TrustScore.neutral.total_volume) * |(1 : ℚ)| = 0) :=
    fun h => absurd h.1 hV.ne'
  simp only [TrustScore.merge_with]
  rw [if_neg h1]
  simp only [TrustScore.neutral]
  norm_num [hV]
  exact mul_div_cancel_right₀ R hV.ne'

/-- Merging a positive-effective-volume contribution into the neutral
accumulator yields its effective ROI/volume pair. -/
theorem merge_with_neutral_left (p : TrustScore × ℚ) (hev : 0 < effectiveVolume p) :
    TrustScore.merge_with TrustScore.neutral p.1 p.2 =
      ⟨effectiveRoi p, effectiveVolume p, p.1.data_points⟩ := by
  unfold effectiveVolume at hev
  have h1 : ¬(TrustScore.neutral.total_volume = 0 ∧ p.1.total_volume * |p.2| = 0) :=
    fun h => absurd h.2 hev.ne'
  simp only [TrustScore.merge_with, effectiveRoi, effectiveVolume]
  rw [if_neg h1]
  simp only [TrustScore.neutral]
  have h2 : (0 : ℚ) + p.1.total_volume * |p.2| = p.1.total_volume * |p.2| := zero_add _
  norm_num [hev]
  split
  · exact mul_div_cancel_right₀ _ hev.ne'
  · exact mul_div_cancel_right₀ _ hev.ne'

/-- Unfolding lemma for `sumEffVolume`. -/
theorem sumEffVolume_cons (p : TrustScore × ℚ) (l : List (TrustScore × ℚ)) :
    sumEffVolume (p :: l) = effectiveVolume p + sumEffVolume l := by
  simp [sumEffVolume]

/-- Unfolding lemma for `sumEffRoiVolume`. -/
theorem sumEffRoiVolume_cons (p : TrustScore × ℚ) (l : List (TrustScore × ℚ)) :
    sumEffRoiVolume (p :: l) = effectiveRoi p * effectiveVolume p + sumEffRoiVolume l := by
  simp [sumEffRoiVolume]

/-- Unfolding lemma for `sumDataPoints`. -/
theorem sumDataPoints_cons (p : TrustScore × ℚ) (l : List (TrustScore × ℚ)) :
    sumDataPoints (p :: l) = p.1.data_points + sumDataPoints l := by
  simp [sumDataPoints]

/-- The effective-volume sum of an all-positive contribution list is nonnegative. -/
theorem sumEffVolume_nonneg (l : List (TrustScore × ℚ)) (h : ∀ p ∈ l, 0 < effectiveVolume p) :
    0 ≤ sumEffVolume l := by
  apply List.sum_nonneg
  intro x hx
  obtain ⟨p, hp, rfl⟩ := List.mem_map.mp hx
  exact (h p hp).le

/-- `mergeFold` on the empty list. -/
theorem mergeFold_nil (init : TrustScore) : mergeFold init [] = init := rfl

/-- `mergeFold` unfolding on a cons cell. -/
theorem mergeFold_cons (init : TrustScore) (p : TrustScore × ℚ) (l : List (TrustScore × ℚ)) :
    mergeFold init (p :: l) = mergeFold (init.merge_with p.1 p.2) l := rfl

/-- `merge_multiple` peels its first contribution into `mergeFold`. -/
theorem merge_multiple_cons (s : TrustScore) (w : ℚ) (rest : List (TrustScore × ℚ)) :
    TrustScore.merge_multiple ((s, w) :: rest) = mergeFold (s.apply_first_weight w) rest := rfl

/-- The `merge_with` fold over an all-positive contribution list computes the
running volume-weighted average, volume sum and data-point sum. -/
theorem foldl_merge_with_pos (l : List (TrustScore × ℚ)) :
    ∀ (R V : ℚ) (N : Nat), 0 < V → (∀ p ∈ l, 0 < effectiveVolume p) →
    mergeFold ⟨R, V, N⟩ l =
      ⟨(R * V + sumEffRoiVolume l) / (V + sumEffVolume l),
       V + sumEffVolume l, N + sumDataPoints l⟩ := by
  induction l with
  | nil =>
    intro R V N hV _
    simp [mergeFold, sumEffRoiVolume, sumEffVolume, sumDataPoints,
      mul_div_cancel_right₀ _ hV.ne']
  | cons p rest ih =>
    intro R V N hV hall
    have hev : 0 < effectiveVolume p := hall p (List.mem_cons_self p rest)
    have hV' : 0 < V + effectiveVolume p := add_pos hV hev
    rw [mergeFold_cons, merge_with_pos R V N p hV hev,
      ih _ _ _ hV' (fun q hq => hall q (List.mem_cons_of_mem p hq)),
      sumEffVolume_cons, sumEffRoiVolume_cons, sumDataPoints_cons]
    have hnum : (R * V + effectiveRoi p * effectiveVolume p) / (V + effectiveVolume p) *
        (V + effectiveVolume p) = R * V + effectiveRoi p * effectiveVolume p :=
      div_mul_cancel₀ _ hV'.ne'
    rw [hnum]
    congr 1
    · rw [add_assoc, add_assoc]
    · rw [add_assoc]
    · omega

/-- On contribution lists whose effective volumes are all strictly positive,
`merge_multiple` computes exactly the section-4.2 fusion formula. -/
theorem merge_multiple_pos_eq (l : List (TrustScore × ℚ))
    (h : ∀ p ∈ l, 0 < effectiveVolume p) :
    TrustScore.merge_multiple l = specFusion l := by
  match l with
  | [] => rfl
  | (s, w) :: rest =>
    have hev : 0 < effectiveVolume (s, w) := h (s, w) (List.mem_cons_self _ _)
    have hrest : ∀ p ∈ rest, 0 < effectiveVolume p :=
      fun p hp => h p (List.mem_cons_of_mem _ hp)
    rw [merge_multiple_cons, apply_first_weight_eq (s, w),
      foldl_merge_with_pos rest _ _ _ hev hrest]
    unfold specFusion
    rw [if_neg (by simp)]
    rw [sumEffVolume_cons, sumEffRoiVolume_cons, sumDataPoints_cons]

/-- Inserting the neutral contribution anywhere into the `merge_with` fold over
an all-positive list leaves the fold unchanged. -/
theorem mergeFold_insert_neutral (rest : List (TrustScore × ℚ)) :
    ∀ (j : Nat) (R V : ℚ) (N : Nat), j ≤ rest.length → 0 < V →
    (∀ p ∈ rest, 0 < effectiveVolume p) →
    mergeFold ⟨R, V, N⟩ (rest.insertIdx j (TrustScore.neutral, 1)) =
      mergeFold ⟨R, V, N⟩ rest := by
  induction rest with
  | nil =>
    intro j R V N hj hV _
    have hj0 : j = 0 := Nat.le_zero.mp hj
    subst hj0
    simp [List.insertIdx, mergeFold_cons, mergeFold_nil]
    exact merge_with_neutral R V N hV
  | cons p ps ih =>
    intro j R V N hj hV hall
    have hev : 0 < effectiveVolume p := hall p (List.mem_cons_self _ _)
    cases j with
    | zero =>
      simp only [List.insertIdx_zero, mergeFold_cons]
      rw [merge_with_neutral R V N hV]
    | succ j' =>
      rw [List.insertIdx_succ_cons, mergeFold_cons, mergeFold_cons,
        merge_with_pos R V N p hV hev]
      exact ih j' _ _ _ (Nat.succ_le_succ_iff.mp hj) (add_pos hV hev)
        (fun q hq => hall q (List.mem_cons_of_mem _ hq))

/-- Inserting the neutral contribution anywhere into an all-positive
contribution list leaves `merge_multiple` unchanged. -/
theorem merge_multiple_insert_neutral (l : List (TrustScore × ℚ)) (i : Nat)
    (hi : i ≤ l.length) (hpos : ∀ p ∈ l, 0 < effectiveVolume p) :
    TrustScore.merge_multiple (l.insertIdx i (TrustScore.neutral, 1)) =
      TrustScore.merge_multiple l := by
  match l with
  | [] =>
    have hi0 : i = 0 := Nat.le_zero.mp hi
    subst hi0
    simp [List.insertIdx, TrustScore.merge_multiple, TrustScore.apply_first_weight]
  | p :: ps =>
    have hev : 0 < effectiveVolume p := hpos p (List.mem_cons_self _ _)
    cases i with
    | zero =>
      simp only [List.insertIdx_zero]
      show TrustScore.merge_multiple ((TrustScore.neutral, 1) :: p :: ps) = _
      rw [merge_multiple_cons, mergeFold_cons]
      have hfw : TrustScore.neutral.apply_first_weight 1 = TrustScore.neutral := by
        simp [TrustScore.apply_first_weight]
      rw [hfw, merge_with_neutral_left p hev]
      obtain ⟨s, w⟩ := p
      rw [merge_multiple_cons, apply_first_weight_eq (s, w)]
    | succ j =>
      obtain ⟨s, w⟩ := p
      rw [List.insertIdx_succ_cons, merge_multiple_cons, merge_multiple_cons,
        apply_first_weight_eq (s, w)]
      exact mergeFold_insert_neutral ps j _ _ _ (Nat.succ_le_succ_iff.mp hi) hev
        (fun q hq => hpos q (List.mem_cons_of_mem _ hq))

/-- The fusion formula is invariant under permutations of the contribution list. -/
theorem specFusion_perm (l l' : List (TrustScore × ℚ)) (hperm : l.Perm l') :
    specFusion l = specFusion l' := by
  have h2 : sumEffVolume l = sumEffVolume l' := by
    unfold sumEffVolume
    exact (hperm.map effectiveVolume).sum_eq
  have h3 : sumEffRoiVolume l = sumEffRoiVolume l' := by
    unfold sumEffRoiVolume
    exact (hperm.map (fun p => effectiveRoi p * effectiveVolume p)).sum_eq
  have h4 : sumDataPoints l = sumDataPoints l' := by
    unfold sumDataPoints
    exact (hperm.map (fun p => p.1.data_points)).sum_eq
  have h0 : l.isEmpty = l'.isEmpty := by
    have hlen := hperm.length_eq
    cases l <;> cases l' <;> simp_all
  unfold specFusion
  rw [h0, h2, h3, h4]

end Repeer

namespace Repeer

/-- C1 (code_bug): the claim says an outbound-failure drain still merges
starting from the Phase-1 local-plus-cached contribution table, replying
successfully whenever that table is non-empty or responses arrived. The code's
`handle_request_failure` ignores the stored `local_scores` entirely: at a state
whose pending record holds a non-empty Phase-1 table, no responses and a
waiting set drained by this failure, it replies with the error
`"All requests failed"`. -/
theorem failure_drain_ignores_phase1_table :
    (handle_request_failure c1_state 0 "B" 0).2 =
      some (.error "All requests failed") ∧
    c1_pending.local_scores ≠ [] ∧
    c1_pending.responses = [] ∧
    c1_pending.waiting_for = ["B"] :=
  ⟨rfl, by simp [c1_pending], rfl, rfl⟩

/-- C2 (counterexample): in the S4 scenario (depth-1 query, no local data,
single peer with `recommender_quality = −0.5` responding `(0.6, 1000, 3)`), the
score delivered to the caller is `(0.6, 1000, 3)`, not the claimed
`(1.4, 500, 3)`: the requester does not apply its view of the peer's quality to
live responses. -/
theorem s4_delivers_unweighted_response :
    s4_run (-(1/2)) ⟨3/5, 1000, 3⟩ = some (.ok ⟨[⟨"x", "a", ⟨3/5, 1000, 3⟩⟩], 0⟩) ∧
    (⟨3/5, 1000, 3⟩ : TrustScore) ≠ ⟨7/5, 500, 3⟩ := by
  refine ⟨rfl, ?_⟩
  norm_num

/-- C2 (amended): in the S4 scenario the reply delivered to the caller is the
peer's response score verbatim, for every recommender quality `q` — peer
responses enter the fan-in merge with weight `1.0` and the requester's signed
view of the peer's quality is applied only to cached opinions, never at
fan-in. -/
theorem fan_in_ignores_recommender_quality (q : ℚ) (s : TrustScore) :
    s4_run q s = some (.ok ⟨[⟨"x", "a", s⟩], 0⟩) := by
  have hm : ∀ s' : TrustScore, TrustScore.merge_multiple [(s', 1)] = s' := by
    intro s'
    simp [TrustScore.merge_multiple, TrustScore.apply_first_weight]
  simp [s4_run, s4_state, s4_query, s4_response, process_trust_query, phase1Table,
    get_experiences, get_cached_scores, sortOrdered, calculate_trust_score,
    fanoutTargets, dedupAppend, handle_trust_response, cacheResponseScores,
    cache_trust_score, findAssoc, merge_responses, fan_in_merge, pushGroup,
    pushContribution, mergeTable, combine_scores_sync, hm, TrustScore.neutral,
    List.find?]

/-- C3 (counterexample): `merge_multiple` does not compute the Σ-formula on
contribution sets containing zero effective volumes — on
`[(0.5,0,4,w=1), (0.75,0,6,1), (2,8,1,1)]` it returns `data_points = 1` while
`Σ nᵢ = 11`, and on the single zero-volume contribution `(0.5,0,4,1)` (where
`Σ vᵢ' = 0`) it returns `(0.5, 0, 4)`, not the neutral default. -/
theorem merge_multiple_formula_fails_on_zero_volume :
    TrustScore.merge_multiple [(⟨1/2, 0, 4⟩, 1), (⟨3/4, 0, 6⟩, 1), (⟨2, 8, 1⟩, 1)] = ⟨2, 8, 1⟩ ∧
    sumDataPoints [((⟨1/2, 0, 4⟩ : TrustScore), (1 : ℚ)), (⟨3/4, 0, 6⟩, 1), (⟨2, 8, 1⟩, 1)] = 11 ∧
    TrustScore.merge_multiple [(⟨1/2, 0, 4⟩, 1)] = ⟨1/2, 0, 4⟩ ∧
    sumEffVolume [((⟨1/2, 0, 4⟩ : TrustScore), (1 : ℚ))] = 0 ∧
    (⟨1/2, 0, 4⟩ : TrustScore) ≠ TrustScore.neutral := by
  refine ⟨?_, ?_, ?_, ?_, ?_⟩
  · norm_num [TrustScore.merge_multiple, TrustScore.apply_first_weight,
      TrustScore.merge_with, TrustScore.neutral]
  · norm_num [sumDataPoints]
  · norm_num [TrustScore.merge_multiple, TrustScore.apply_first_weight]
  · norm_num [sumEffVolume, effectiveVolume]
  · norm_num [TrustScore.neutral]

/-- C3 (amended): for every finite contribution list in which each
contribution has strictly positive effective volume `vᵢ·|wᵢ| > 0`, fusion
returns `expected_pv_roi = Σ rᵢ'·vᵢ'/Σ vᵢ'`, `total_volume = Σ vᵢ'` and
`data_points = Σ nᵢ` (with `vᵢ' = vᵢ·|wᵢ|` and `rᵢ' = rᵢ` if `wᵢ ≥ 0`, else
`2 − rᵢ`); the empty list yields the neutral default `(1.0, 0.0, 0)`. -/
theorem merge_multiple_spec_formula (l : List (TrustScore × ℚ))
    (h : ∀ p ∈ l, 0 < effectiveVolume p) :
    TrustScore.merge_multiple l = specFusion l :=
  merge_multiple_pos_eq l h

/-- Witness for C3's theorem at the concrete list `[(2,10,3,w=1)]`. -/
theorem merge_multiple_spec_formula_witness :
    (∀ p ∈ [((⟨2, 10, 3⟩ : TrustScore), (1 : ℚ))], 0 < effectiveVolume p) ∧
    TrustScore.merge_multiple [((⟨2, 10, 3⟩ : TrustScore), (1 : ℚ))] =
      specFusion [((⟨2, 10, 3⟩ : TrustScore), (1 : ℚ))] := by
  have h : ∀ p ∈ [((⟨2, 10, 3⟩ : TrustScore), (1 : ℚ))], 0 < effectiveVolume p := by
    intro p hp
    simp only [List.mem_singleton] at hp
    subst hp
    norm_num [effectiveVolume]
  exact ⟨h, merge_multiple_spec_formula _ h⟩

/-- C4 (counterexample): the local score engine counts dropped experiences —
with experiences `(1.2, v=100, t=T)` and `(0.8, v=50, t=T − 365 d)` at
`φ = 1`, the second experience's `age_factor` is `0`, yet the engine returns
`data_points = 2` (the claim says 1); and on the fully decayed singleton it
returns `(1.0, 0.0, 1)`, not the neutral default `(1.0, 0.0, 0)`. -/
theorem local_score_counts_dropped_experiences :
    calculate_trust_score
        [⟨"e1", "a", 6/5, 100, 0, none, none⟩, ⟨"e2", "a", 4/5, 50, -31536000, none, none⟩]
        0 1 = ⟨6/5, 100, 2⟩ ∧
    (contributingExperiences
        [⟨"e1", "a", 6/5, 100, 0, none, none⟩, ⟨"e2", "a", 4/5, 50, -31536000, none, none⟩]
        0 1).length = 1 ∧
    calculate_trust_score [⟨"e2", "a", 4/5, 50, -31536000, none, none⟩] 0 1 = ⟨1, 0, 1⟩ ∧
    (⟨1, 0, 1⟩ : TrustScore) ≠ TrustScore.neutral := by
  have h : Int.tdiv 31536000 86400 = 365 := by decide
  refine ⟨?_, ?_, ?_, ?_⟩
  · norm_num [calculate_trust_score, calculate_weighted_average,
      TrustExperience.aged_volume, List.foldl, h]
  · norm_num [contributingExperiences, TrustExperience.aged_volume, List.filter, h]
  · norm_num [calculate_trust_score, calculate_weighted_average,
      TrustExperience.aged_volume, List.foldl, h]
  · norm_num [TrustScore.neutral]

/-- Fold characterization of `calculate_weighted_average`'s accumulator: it
accumulates the ROI-weighted and plain aged-volume sums over the contributing
experiences. -/
theorem aged_foldl_eq (es : List TrustExperience) (T : Int) (φ : ℚ) :
    ∀ (a b : ℚ),
    es.foldl
      (fun (acc : ℚ × ℚ) exp =>
        let aged := exp.aged_volume T φ
        if 0 < aged then (acc.1 + exp.pv_roi * aged, acc.2 + aged) else acc)
      (a, b) =
      (a + agedRoiSum es T φ, b + agedVolumeSum es T φ) := by
  induction es with
  | nil =>
    intro a b
    simp [agedRoiSum, agedVolumeSum, contributingExperiences]
  | cons e rest ih =>
    intro a b
    rw [List.foldl_cons]
    by_cases h : 0 < e.aged_volume T φ
    · have hc : contributingExperiences (e :: rest) T φ =
          e :: contributingExperiences rest T φ := by
        simp [contributingExperiences, List.filter_cons, h]
      have h1 : agedRoiSum (e :: rest) T φ =
          e.pv_roi * e.aged_volume T φ + agedRoiSum rest T φ := by
        simp [agedRoiSum, hc]
      have h2 : agedVolumeSum (e :: rest) T φ =
          e.aged_volume T φ + agedVolumeSum rest T φ := by
        simp [agedVolumeSum, hc]
      simp only [if_pos h]
      rw [ih, h1, h2, Prod.mk.injEq]
      constructor <;> ring
    · have hc : contributingExperiences (e :: rest) T φ =
          contributingExperiences rest T φ := by
        simp [contributingExperiences, List.filter_cons, h]
      have h1 : agedRoiSum (e :: rest) T φ = agedRoiSum rest T φ := by
        simp [agedRoiSum, hc]
      have h2 : agedVolumeSum (e :: rest) T φ = agedVolumeSum rest T φ := by
        simp [agedVolumeSum, hc]
      simp only [if_neg h]
      rw [ih, h1, h2]

/-- The aged-volume sum over contributing experiences is nonnegative. -/
theorem agedVolumeSum_nonneg (es : List TrustExperience) (T : Int) (φ : ℚ) :
    0 ≤ agedVolumeSum es T φ := by
  apply List.sum_nonneg
  intro x hx
  obtain ⟨e, he, rfl⟩ := List.mem_map.mp hx
  have := List.of_mem_filter he
  simp only [decide_eq_true_eq] at this
  exact this.le

/-- `calculate_weighted_average` in closed form over the contributing sums. -/
theorem calculate_weighted_average_eq (es : List TrustExperience) (T : Int) (φ : ℚ) :
    calculate_weighted_average es T φ =
      (if 0 < agedVolumeSum es T φ then agedRoiSum es T φ / agedVolumeSum es T φ else 1,
       agedVolumeSum es T φ) := by
  unfold calculate_weighted_average
  rw [aged_foldl_eq]
  simp only [zero_add]
  by_cases h : 0 < agedVolumeSum es T φ
  · simp [h]
  · have h0 : agedVolumeSum es T φ = 0 :=
      le_antisymm (not_lt.mp h) (agedVolumeSum_nonneg es T φ)
    simp [h, h0]

/-- C4 (amended): for every experience set, time `T` and forget rate `φ ≥ 0`,
the local score engine returns the volume-weighted average and aged-volume sum
over the contributing experiences (those with `aged_volume > 0` — a fully
decayed experience is dropped from the ROI and volume components), but
`data_points` equal to the number of fetched experiences including the dropped
ones; an empty experience set yields the neutral default, while a non-empty set
whose aged-volume sum is `0` yields `(1.0, 0.0, count)`. -/
theorem calculate_trust_score_eq_spec (es : List TrustExperience) (T : Int) (φ : ℚ)
    (hφ : 0 ≤ φ) :
    calculate_trust_score es T φ = specLocalScore es T φ := by
  unfold calculate_trust_score specLocalScore
  by_cases he : es.isEmpty
  · simp [he]
  · rw [if_neg he, if_neg he, calculate_weighted_average_eq]

/-- Witness for C4's theorem at `φ = 1` on the two-experience set of the
counterexample. -/
theorem calculate_trust_score_eq_spec_witness :
    (0 : ℚ) ≤ 1 ∧
    calculate_trust_score
        [⟨"e1", "a", 6/5, 100, 0, none, none⟩, ⟨"e2", "a", 4/5, 50, -31536000, none, none⟩]
        0 1 =
      specLocalScore
        [⟨"e1", "a", 6/5, 100, 0, none, none⟩, ⟨"e2", "a", 4/5, 50, -31536000, none, none⟩]
        0 1 :=
  ⟨by norm_num, calculate_trust_score_eq_spec _ _ _ (by norm_num)⟩

/-- C5 (counterexample): fusion is not order-independent and the neutral
default is not an identity once zero effective volumes occur — permuting
`[(1.5,0,5,1), (1.5,0,3,1), (1.5,10,2,1)]` changes `data_points` from 2 to 10,
and prepending the neutral contribution to `[(1.75,0,2,1)]` collapses the
result to the neutral score. -/
theorem merge_multiple_not_perm_invariant :
    ([((⟨3/2, 0, 5⟩ : TrustScore), (1 : ℚ)), (⟨3/2, 0, 3⟩, 1), (⟨3/2, 10, 2⟩, 1)]).Perm
      [((⟨3/2, 0, 5⟩ : TrustScore), (1 : ℚ)), (⟨3/2, 10, 2⟩, 1), (⟨3/2, 0, 3⟩, 1)] ∧
    TrustScore.merge_multiple
        [(⟨3/2, 0, 5⟩, 1), (⟨3/2, 0, 3⟩, 1), (⟨3/2, 10, 2⟩, 1)] = ⟨3/2, 10, 2⟩ ∧
    TrustScore.merge_multiple
        [(⟨3/2, 0, 5⟩, 1), (⟨3/2, 10, 2⟩, 1), (⟨3/2, 0, 3⟩, 1)] = ⟨3/2, 10, 10⟩ ∧
    TrustScore.merge_multiple
        [(TrustScore.neutral, 1), (⟨7/4, 0, 2⟩, 1)] = TrustScore.neutral ∧
    TrustScore.merge_multiple [(⟨7/4, 0, 2⟩, 1)] = ⟨7/4, 0, 2⟩ ∧
    (⟨7/4, 0, 2⟩ : TrustScore) ≠ TrustScore.neutral := by
  refine ⟨List.Perm.cons _ (List.Perm.swap _ _ _), ?_, ?_, ?_, ?_, ?_⟩
  · norm_num [TrustScore.merge_multiple, TrustScore.apply_first_weight,
      TrustScore.merge_with, TrustScore.neutral]
  · norm_num [TrustScore.merge_multiple, TrustScore.apply_first_weight,
      TrustScore.merge_with, TrustScore.neutral]
  · norm_num [TrustScore.merge_multiple, TrustScore.apply_first_weight,
      TrustScore.merge_with, TrustScore.neutral]
  · norm_num [TrustScore.merge_multiple, TrustScore.apply_first_weight]
  · norm_num [TrustScore.neutral]

/-- C5 (amended): on contribution lists whose effective volumes are all
strictly positive, fusion is order-independent — any permutation yields the
same merged score exactly, `data_points` included — and inserting the neutral
default `(1.0, 0.0, 0)` as an additional weight-1 contribution at any position
leaves the result unchanged. -/
theorem merge_multiple_perm_and_identity (l l' : List (TrustScore × ℚ)) (i : Nat)
    (hperm : l.Perm l') (hpos : ∀ p ∈ l, 0 < effectiveVolume p) (hi : i ≤ l.length) :
    TrustScore.merge_multiple l = TrustScore.merge_multiple l' ∧
    TrustScore.merge_multiple (l.insertIdx i (TrustScore.neutral, 1)) =
      TrustScore.merge_multiple l := by
  refine ⟨?_, merge_multiple_insert_neutral l i hi hpos⟩
  rw [merge_multiple_pos_eq l hpos,
    merge_multiple_pos_eq l' (fun p hp => hpos p (hperm.mem_iff.mpr hp))]
  exact specFusion_perm l l' hperm

/-- Witness for C5's theorem on a two-element positive list, its swap, and the
neutral insertion at position 1. -/
theorem merge_multiple_perm_and_identity_witness :
    TrustScore.merge_multiple [((⟨2, 5, 1⟩ : TrustScore), (1 : ℚ)), (⟨1, 3, 2⟩, 1)] =
      TrustScore.merge_multiple [((⟨1, 3, 2⟩ : TrustScore), (1 : ℚ)), (⟨2, 5, 1⟩, 1)] ∧
    TrustScore.merge_multiple
        (([((⟨2, 5, 1⟩ : TrustScore), (1 : ℚ)), (⟨1, 3, 2⟩, 1)]).insertIdx 1
          (TrustScore.neutral, 1)) =
      TrustScore.merge_multiple [((⟨2, 5, 1⟩ : TrustScore), (1 : ℚ)), (⟨1, 3, 2⟩, 1)] := by
  have hpos : ∀ p ∈ [((⟨2, 5, 1⟩ : TrustScore), (1 : ℚ)), (⟨1, 3, 2⟩, 1)],
      0 < effectiveVolume p := by
    intro p hp
    simp only [List.mem_cons, List.mem_singleton] at hp
    rcases hp with h | h | h
    · subst h; norm_num [effectiveVolume]
    · subst h; norm_num [effectiveVolume]
    · cases h
  exact merge_multiple_perm_and_identity _ _ 1
    (List.Perm.swap _ _ _) hpos (by norm_num)

/-- C6 (code_bug): the persisted cache key ignores `id_domain` — caching two
opinions that differ only in `id_domain` (same `agent_id` `"x"`, same peer
`"P"`) leaves a single row, the second overwriting the first, although the
claim (and the repository's own tests and callers, which pass the full
identifier) requires two distinct rows. -/
theorem cached_key_ignores_id_domain :
    cache_trust_score (cache_trust_score [] ⟨"a", "x", ⟨1, 100, 1⟩, "P", 0⟩)
        ⟨"b", "x", ⟨3/2, 200, 2⟩, "P", 1⟩ =
      [⟨"x", ⟨3/2, 200, 2⟩, "P", 1⟩] ∧
    ("a" : String) ≠ "b" :=
  ⟨rfl, by simp⟩

/-- C7 (counterexample): a request frame whose declared big-endian length is
exactly 1 MiB (1,048,576 bytes) with a complete payload is rejected with the
invalid-data error, although the claim says request frames up to 1 MiB are
accepted: the code's limit is 1,000,000 bytes. -/
theorem frame_rejects_one_mebibyte :
    read_request_frame (0 :: 16 :: 0 :: 0 :: List.replicate 1048576 32) =
      .error .invalidData ∧
    declaredLength (0 :: 16 :: 0 :: 0 :: List.replicate 1048576 32) = some 1048576 ∧
    (List.replicate 1048576 32).length = 1048576 ∧ 1048576 ≤ 1048576 :=
  ⟨rfl, by norm_num [declaredLength], by rw [List.length_replicate], le_refl _⟩

/-- C7 (amended): the codec reads a 4-byte big-endian length and accepts a
request frame iff the declared length is at most 1,000,000 bytes and a response
frame iff at most 10,000,000 bytes — an oversize frame fails with the
invalid-data error regardless of the payload, i.e. before it is read. -/
theorem frame_limits (b0 b1 b2 b3 : Nat) (rest : List Nat) :
    (1000000 < ((b0 * 256 + b1) * 256 + b2) * 256 + b3 →
      read_request_frame (b0 :: b1 :: b2 :: b3 :: rest) = .error .invalidData) ∧
    (((b0 * 256 + b1) * 256 + b2) * 256 + b3 ≤ 1000000 →
      ((b0 * 256 + b1) * 256 + b2) * 256 + b3 ≤ rest.length →
      read_request_frame (b0 :: b1 :: b2 :: b3 :: rest) =
        .ok (rest.take (((b0 * 256 + b1) * 256 + b2) * 256 + b3))) ∧
    (10000000 < ((b0 * 256 + b1) * 256 + b2) * 256 + b3 →
      read_response_frame (b0 :: b1 :: b2 :: b3 :: rest) = .error .invalidData) ∧
    (((b0 * 256 + b1) * 256 + b2) * 256 + b3 ≤ 10000000 →
      ((b0 * 256 + b1) * 256 + b2) * 256 + b3 ≤ rest.length →
      read_response_frame (b0 :: b1 :: b2 :: b3 :: rest) =
        .ok (rest.take (((b0 * 256 + b1) * 256 + b2) * 256 + b3))) := by
  refine ⟨?_, ?_, ?_, ?_⟩
  · intro h
    simp only [read_request_frame, read_length_prefixed]
    rw [if_pos h]
  · intro h1 h2
    simp only [read_request_frame, read_length_prefixed]
    rw [if_neg (by omega), if_neg (by omega)]
  · intro h
    simp only [read_response_frame, read_length_prefixed]
    rw [if_pos h]
  · intro h1 h2
    simp only [read_response_frame, read_length_prefixed]
    rw [if_neg (by omega), if_neg (by omega)]

/-- Witness for C7's theorem: a 2-byte frame is read on both sides. -/
theorem frame_limits_witness :
    read_request_frame [0, 0, 0, 2, 10, 20, 30] = .ok [10, 20] ∧
    read_response_frame [0, 0, 0, 2, 10, 20, 30] = .ok [10, 20] :=
  ⟨(frame_limits 0 0 0 2 [10, 20, 30]).2.1 (by norm_num) (by norm_num),
   (frame_limits 0 0 0 2 [10, 20, 30]).2.2.2 (by norm_num) (by norm_num)⟩

/-- C8 (confirmed): a query with `max_depth = 0` issues no sub-query and
leaves the node state (pending-request table included) untouched, and its
reply is `depth_zero_reply` — a function only of the stored experiences, the
cached opinions, the peer registry and the query's pinned clock, independent
of the connected set, the transport-id extraction and the pending state. -/
theorem depth_zero_no_fanout (extract : String → Option String) (connected : List String)
    (st : NodeState) (query : TrustQuery) (now : Int) (h : query.max_depth = 0) :
    process_trust_query extract connected st query now =
      (st, [], some (.ok (depth_zero_reply st.experiences st.cached st.peers query now))) := by
  simp [process_trust_query, depth_zero_reply, h]

/-- Witness for C8's theorem at a depth-0 query against a state with one
experience, one cached opinion and one registered, connected peer. -/
theorem depth_zero_no_fanout_witness :
    c8_query.max_depth = 0 ∧
    process_trust_query (fun h => some h) ["B"] c8_state c8_query 5 =
      (c8_state, [],
        some (.ok (depth_zero_reply c8_state.experiences c8_state.cached c8_state.peers
          c8_query 5))) :=
  ⟨rfl, depth_zero_no_fanout _ _ _ _ _ rfl⟩

/-- C9 (confirmed): when the event (response or failure) that empties a
pending record's waiting set is processed, every index entry referencing that
record (by reference id, the model of `Arc::ptr_eq`) is removed and the record
is destroyed; when the waiting set does not empty, the index is untouched and
no reply is produced. -/
theorem pending_cleanup_exact (st : NodeState) (rid : Nat) (peer : String) (ref : Nat)
    (pending : PendingRequest) (resp : TrustResponse) (now : Int)
    (h1 : findAssoc st.index rid = some ref)
    (h2 : findAssoc st.records ref = some pending) :
    ((pending.waiting_for.filter (fun p => ¬ p = peer)).isEmpty = true →
      (handle_trust_response st rid peer resp now).1.index =
        st.index.filter (fun e => ¬ e.2 = ref) ∧
      (handle_trust_response st rid peer resp now).1.records =
        st.records.filter (fun r => ¬ r.1 = ref) ∧
      (∀ e ∈ (handle_trust_response st rid peer resp now).1.index, ¬ e.2 = ref) ∧
      (handle_trust_response st rid peer resp now).2.isSome = true ∧
      (handle_request_failure st rid peer now).1.index =
        st.index.filter (fun e => ¬ e.2 = ref) ∧
      (handle_request_failure st rid peer now).1.records =
        st.records.filter (fun r => ¬ r.1 = ref) ∧
      (∀ e ∈ (handle_request_failure st rid peer now).1.index, ¬ e.2 = ref) ∧
      (handle_request_failure st rid peer now).2.isSome = true) ∧
    ((pending.waiting_for.filter (fun p => ¬ p = peer)).isEmpty = false →
      (handle_trust_response st rid peer resp now).1.index = st.index ∧
      (handle_trust_response st rid peer resp now).2 = none ∧
      (handle_request_failure st rid peer now).1.index = st.index ∧
      (handle_request_failure st rid peer now).2 = none) := by
  constructor
  · intro hw
    simp only [handle_trust_response, handle_request_failure, h1, h2, hw]
    simp [List.mem_filter]
  · intro hw
    simp only [handle_trust_response, handle_request_failure, h1, h2, hw]
    simp

/-- Witness for C9's theorem: record 0, indexed under request ids 0 and 1 and
waiting on `"B"` alone, is fully unindexed by the draining event while record
7's entry survives. -/
theorem pending_cleanup_exact_witness :
    (handle_trust_response c9_state 0 "B" ⟨[], 0⟩ 0).1.index =
      c9_state.index.filter (fun e => ¬ e.2 = 0) ∧
    (handle_request_failure c9_state 0 "B" 0).1.index =
      c9_state.index.filter (fun e => ¬ e.2 = 0) ∧
    (handle_trust_response c9_state 0 "B" ⟨[], 0⟩ 0).2.isSome = true :=
  have h := (pending_cleanup_exact c9_state 0 "B" 0 c9_pending ⟨[], 0⟩ 0 rfl rfl).1 rfl
  ⟨h.1, h.2.2.2.2.1, h.2.2.2.1⟩

/-- Membership is preserved by the ordered-insert step. -/
theorem mem_insertOrdered {α : Type} (le : α → α → Bool) (a b : α) (l : List α) :
    b ∈ insertOrdered le a l ↔ b = a ∨ b ∈ l := by
  induction l with
  | nil => simp [insertOrdered]
  | cons x xs ih =>
    by_cases h : le x a
    · simp [insertOrdered, h, ih]
      tauto
    · simp [insertOrdered, h]

/-- Membership is preserved by the result-set sort. -/
theorem mem_sortOrdered {α : Type} (le : α → α → Bool) (b : α) (l : List α) :
    b ∈ sortOrdered le l ↔ b ∈ l := by
  induction l with
  | nil => simp [sortOrdered]
  | cons x xs ih =>
    simp only [sortOrdered, List.foldr_cons] at *
    rw [mem_insertOrdered, ih]
    simp

/-- C10 (confirmed): `add_experience` validates nothing — it fails (with the
duplicate-key conflict) iff the experience id is already present, and for any
experience whatsoever (non-positive `invested_volume` and empty identifier
strings included) a fresh id makes the insert succeed, after which
`get_experiences` for the same agent returns the stored experience unchanged. -/
theorem add_experience_no_validation (store : List TrustExperience) (e : TrustExperience) :
    (add_experience store e = .error .conflict ↔ ∃ x ∈ store, x.id = e.id) ∧
    ((∀ x ∈ store, x.id ≠ e.id) →
      add_experience store e = .ok (store ++ [e]) ∧
      e ∈ get_experiences (store ++ [e]) e.agent_id) := by
  constructor
  · by_cases h : ∃ x ∈ store, x.id = e.id
    · have hb : store.any (fun x => x.id = e.id) = true := by
        simpa [List.any_eq_true] using h
      simp [add_experience, hb, h]
    · have hb : store.any (fun x => x.id = e.id) = false := by
        simp only [List.any_eq_false]
        intro x hx
        simp only [decide_eq_true_eq]
        exact fun hid => h ⟨x, hx, hid⟩
      simp [add_experience, hb, h]
  · intro h
    have hb : store.any (fun x => x.id = e.id) = false := by
      simp only [List.any_eq_false]
      intro x hx
      simp only [decide_eq_true_eq]
      exact h x hx
    constructor
    · simp [add_experience, hb]
    · unfold get_experiences
      rw [mem_sortOrdered, List.mem_filter]
      constructor
      · exact List.mem_append_right _ (List.mem_singleton_self e)
      · simp

/-- Witness for C10's theorem: an experience with negative volume, empty agent
id and an opaque payload is stored and read back unchanged. -/
theorem add_experience_no_validation_witness :
    add_experience [] ⟨"e1", "", 0, -5, 0, none, some "blob"⟩ =
      .ok [⟨"e1", "", 0, -5, 0, none, some "blob"⟩] ∧
    (⟨"e1", "", 0, -5, 0, none, some "blob"⟩ : TrustExperience) ∈
      get_experiences [⟨"e1", "", 0, -5, 0, none, some "blob"⟩] "" :=
  (add_experience_no_validation [] ⟨"e1", "", 0, -5, 0, none, some "blob"⟩).2
    (by simp)

end Repeer
